import Mathlib

/-!
Shallow embedding of the valet credential-reconciliation engine
(framework/reconciler.go and the framework status types) in Lean 4.

Times are modelled as integers (nanoseconds since an arbitrary epoch),
durations as integers (nanoseconds), matching the int64-nanosecond
representation of time.Duration in the source. Division of durations
uses Int.tdiv, the truncated division of the source language.
Errors are modelled as strings (the message text); fallible external
collaborators (API server, provider) are modelled as oracle fields of an
environment record, so a reconcile pass is a pure function of the
environment and the in-memory object.
-/

namespace Valet

/-- One minute in nanoseconds. -/
def minuteNs : Int := 60 * 1000000000

/-- RenewalThreshold from the source: 7 days, in nanoseconds. -/
def renewalThreshold : Int := 7 * 24 * 60 * 60 * 1000000000

/-- Finalizer string applied to managed CRDs. -/
def Finalizer : String := "cso.ngl.cx/finalizer"

/-- Condition type managed by the engine. -/
def ConditionReady : String := "Ready"

/-- Phase string for a ready resource. -/
def PhaseReady : String := "Ready"

/-- Phase string for a failed resource. -/
def PhaseFailed : String := "Failed"

/-- ActiveKey mirrors the source record: a provisioned credential with
provider-assigned id and creation and expiry instants. -/
structure ActiveKey where
  keyID : String
  createdAt : Int
  expiresAt : Int
deriving DecidableEq

/-- NearExpiry mirrors the source: a key is near expiry when it is already
past its expiry instant, or the remaining lifetime is below the threshold
min(validity/10, renewalThreshold). The source compares with
ExpiresAt.Before(now), a strict comparison. -/
def ActiveKey.nearExpiry (now : Int) (k : ActiveKey) : Bool :=
  if k.expiresAt < now then
    true
  else
    let validity := k.expiresAt - k.createdAt
    let threshold := min (Int.tdiv validity 10) renewalThreshold
    decide (k.expiresAt - now < threshold)

/-- ActiveKeys is the ordered key set of the status record. -/
abbrev ActiveKeys := List ActiveKey

/-- Accumulator loop of Newest: the running candidate is replaced exactly
when a later entry has a strictly greater createdAt (CreatedAt.After in the
source is strict). -/
def ActiveKeys.newestGo (acc : Option ActiveKey) : ActiveKeys → Option ActiveKey
  | [] => acc
  | k :: rest =>
    match acc with
    | none => ActiveKeys.newestGo (some k) rest
    | some n =>
      if n.createdAt < k.createdAt then ActiveKeys.newestGo (some k) rest
      else ActiveKeys.newestGo (some n) rest

/-- Newest mirrors the source loop over the key list. -/
def ActiveKeys.newest (keys : ActiveKeys) : Option ActiveKey :=
  ActiveKeys.newestGo none keys

/-- DropExpired mirrors the source: entries whose expiresAt is strictly
before now are offered to the keep callback; kept entries stay in order,
the rest are returned as the dropped list, in order. Returns the pair of
the retained list and the dropped list. -/
def ActiveKeys.dropExpired (now : Int) (keep : ActiveKey → Bool) :
    ActiveKeys → ActiveKeys × List ActiveKey
  | [] => ([], [])
  | k :: rest =>
    let (kept, dropped) := ActiveKeys.dropExpired now keep rest
    if !(decide (k.expiresAt < now)) || keep k then
      (k :: kept, dropped)
    else
      (kept, k :: dropped)

/-- Condition mirrors the metav1.Condition fields the engine touches.
A lastTransitionTime of none stands for the zero time. -/
structure Condition where
  type : String
  status : String
  reason : String
  message : String
  observedGeneration : Int
  lastTransitionTime : Option Int
deriving DecidableEq

/-- SetStatusCondition mirrors meta.SetStatusCondition of the apimachinery
dependency: the first condition with the same type is updated in place
(lastTransitionTime changes only when the status changes); when no
condition of that type exists the new condition is appended with
lastTransitionTime defaulted to now. -/
def setStatusCondition (now : Int) (newC : Condition) : List Condition → List Condition
  | [] => [{ newC with lastTransitionTime := some (newC.lastTransitionTime.getD now) }]
  | c :: rest =>
    if c.type = newC.type then
      { c with
        status := newC.status
        lastTransitionTime :=
          if c.status = newC.status then c.lastTransitionTime
          else some (newC.lastTransitionTime.getD now)
        reason := newC.reason
        message := newC.message
        observedGeneration := newC.observedGeneration } :: rest
    else
      c :: setStatusCondition now newC rest

/-- FindStatusCondition mirrors meta.FindStatusCondition: the first
condition with the given type. -/
def findStatusCondition (t : String) : List Condition → Option Condition
  | [] => none
  | c :: rest => if c.type = t then some c else findStatusCondition t rest

/-- Result mirrors the provider result record. -/
structure Result where
  stringData : List (String × String)
  validUntil : Int
  provisionedAt : Int
  keyID : String
deriving DecidableEq

/-- ClientSecretStatus mirrors the shared status record of the framework. -/
structure ClientSecretStatus where
  observedGeneration : Int := 0
  phase : String := ""
  currentKeyID : String := ""
  activeKeys : ActiveKeys := []
  failureCount : Int := 0
  lastFailure : Option Int := none
  lastFailureMessage : String := ""
  conditions : List Condition := []
deriving DecidableEq

/-- NeedsRenewal mirrors the source: renewal is needed when the key set is
empty, the observed generation differs from the current one, the output
secret has no data, or the newest key is near expiry. -/
def ClientSecretStatus.needsRenewal (s : ClientSecretStatus)
    (now currentGeneration : Int) (secretHasData : Bool) : Bool :=
  if s.activeKeys.length = 0 then true
  else if s.observedGeneration ≠ currentGeneration then true
  else if !secretHasData then true
  else
    match s.activeKeys.newest with
    | none => true
    | some newest => newest.nearExpiry now

/-- RenewalDuration mirrors the source: zero when there is no newest key,
otherwise the time to the start of the renewal window, floored at one
minute. -/
def ClientSecretStatus.renewalDuration (s : ClientSecretStatus) (now : Int) : Int :=
  match s.activeKeys.newest with
  | none => 0
  | some newest =>
    let validity := newest.expiresAt - newest.createdAt
    let threshold := min (Int.tdiv validity 10) renewalThreshold
    max (newest.expiresAt - now - threshold) minuteNs

/-- SetReady mirrors the source: phase Ready, generation observed, current
key id taken from the result, failure fields cleared, the new key appended
to the key set when its id is nonempty, and the Ready condition set to
True with reason Provisioned. -/
def ClientSecretStatus.setReady (s : ClientSecretStatus)
    (now generation : Int) (result : Result) : ClientSecretStatus :=
  let s1 := { s with
    phase := PhaseReady
    observedGeneration := generation
    currentKeyID := result.keyID
    failureCount := 0
    lastFailure := none
    lastFailureMessage := "" }
  let s2 :=
    if result.keyID ≠ "" then
      { s1 with activeKeys :=
          s1.activeKeys ++ [⟨result.keyID, result.provisionedAt, result.validUntil⟩] }
    else s1
  let c : Condition :=
    ⟨ConditionReady, "True", "Provisioned",
      "Credentials provisioned successfully", generation, none⟩
  { s2 with conditions := setStatusCondition now c s2.conditions }

/-- SetFailed mirrors the source: phase Failed, failure counter bumped,
failure instant and message recorded, and the Ready condition set to False
with reason ProvisioningFailed. The observed generation field of the
status itself is left untouched. -/
def ClientSecretStatus.setFailed (s : ClientSecretStatus)
    (now generation : Int) (errMsg : String) : ClientSecretStatus :=
  let s1 := { s with
    phase := PhaseFailed
    failureCount := s.failureCount + 1
    lastFailure := some now
    lastFailureMessage := errMsg }
  let c : Condition :=
    ⟨ConditionReady, "False", "ProvisioningFailed", errMsg, generation, none⟩
  { s1 with conditions := setStatusCondition now c s1.conditions }

/-- CtrlResult mirrors the scheduling directive returned to the host
runtime: the empty result, an immediate requeue, or a delayed requeue. -/
inductive CtrlResult where
  | empty
  | requeue
  | requeueAfter (d : Int)
deriving DecidableEq

/-- ProviderCall records one call into the provider contract. -/
inductive ProviderCall where
  | provision
  | deleteKey (keyID : String)
deriving DecidableEq

/-- GetObjErr distinguishes a not-found fetch of the managed resource from
any other API error, since not-found is swallowed by the orchestrator. -/
inductive GetObjErr where
  | notFound
  | other (msg : String)
deriving DecidableEq

/-- SecretState models the output Secret as seen and written by the
engine: its controller owner and its data map. -/
structure SecretState where
  controllerOwner : Option String
  data : List (String × String)
deriving DecidableEq

/-- Obj models the managed resource: identity, generation, deletion
stamp, finalizer list, the secret reference, the outcome of Validate on
its spec, and the embedded status record. -/
structure Obj where
  name : String := ""
  nsName : String := ""
  generation : Int := 0
  deletionTimestampIsZero : Bool := true
  finalizers : List String := []
  secretRefName : String := ""
  validateErr : Option String := none
  status : ClientSecretStatus := {}
deriving DecidableEq

/-- Env fixes the responses of every external collaborator touched during
one reconcile pass: the clock, the resource fetch, resource and status
updates, per-key provider deletion, the current output Secret (none when
absent) together with a possible transient read error, provisioning, and
the output-Secret write. -/
structure Env where
  now : Int := 0
  getObjErr : Option GetObjErr := none
  updateObjErr : Option String := none
  statusUpdateErr : Option String := none
  deleteKeyErr : String → Option String := fun _ => none
  secretPre : Option SecretState := none
  secretGetErr : Option String := none
  provision : Except String Result := .error ""
  secretWriteErr : Option String := none

/-- Outcome of one pass: the directive and error returned to the host,
the final in-memory object, the provider calls made in order, the status
values handed to the status updater, the number of object updates, the
resulting output-Secret state, and the number of Secret writes. -/
structure Outcome where
  result : CtrlResult := .empty
  err : Option String := none
  obj : Obj
  calls : List ProviderCall := []
  statusPersists : List ClientSecretStatus := []
  objPersists : Nat := 0
  secret : Option SecretState
  secretWrites : Nat := 0

/-- Go formatting of the deletion-failure error, with the count spliced
into the message. -/
def deletionFailureMsg (n : Nat) : String :=
  "failed to delete " ++ toString n ++ " active key(s), will retry"

/-- Keys whose provider deletion fails while they are not yet expired at
now (ExpiresAt.Before(now) is false, so expiry at the exact instant still
counts as active). -/
def activeFailureCount (env : Env) (keys : ActiveKeys) : Nat :=
  (keys.filter fun k =>
    (env.deleteKeyErr k.keyID).isSome && !(decide (k.expiresAt < env.now))).length

/-- The secretHasData check of the orchestrator: any fetch error (not
found included) yields false, otherwise the data map must be nonempty. -/
def Env.secretHasData (env : Env) : Bool :=
  if env.secretGetErr.isSome then false
  else
    match env.secretPre with
    | none => false
    | some s => decide (0 < s.data.length)

/-- Merge of stringData into the data map, as the API server applies a
Secret update: entries of the new map override same-named entries, the
remaining old entries persist. -/
def mergeStringData (old new : List (String × String)) : List (String × String) :=
  old.filter (fun kv => !(new.any fun kv2 => kv2.1 = kv.1)) ++ new

/-- The scheduleNext helper: requeue after the renewal duration when it is
positive, otherwise requeue immediately. -/
def scheduleNext (env : Env) (obj : Obj) : CtrlResult :=
  let d := obj.status.renewalDuration env.now
  if 0 < d then .requeueAfter d else .requeue

/-- The handleDeletion branch: with the finalizer absent it succeeds with
no calls; otherwise it calls DeleteKey once per key in order, counts
failures on keys not yet expired, blocks (returning the counting error)
when any exist, and otherwise removes the finalizer and updates the
resource, surfacing the update error. -/
def handleDeletion (env : Env) (obj : Obj) : Outcome :=
  if !(obj.finalizers.contains Finalizer) then
    { obj := obj, secret := env.secretPre }
  else
    let calls := obj.status.activeKeys.map fun k => ProviderCall.deleteKey k.keyID
    let n := activeFailureCount env obj.status.activeKeys
    if 0 < n then
      { err := some (deletionFailureMsg n)
        obj := obj
        calls := calls
        secret := env.secretPre }
    else
      { err := env.updateObjErr
        obj := { obj with finalizers := obj.finalizers.filter (· ≠ Finalizer) }
        calls := calls
        objPersists := 1
        secret := env.secretPre }

/-- The failStatus helper: record the failure in the status, persist it,
and return the original error unless the persist itself fails. -/
def failStatus (env : Env) (obj : Obj) (msg : String) : Outcome :=
  let st := obj.status.setFailed env.now obj.generation msg
  let obj1 := { obj with status := st }
  match env.statusUpdateErr with
  | some ue =>
    { err := some ue, obj := obj1, statusPersists := [st], secret := env.secretPre }
  | none =>
    { err := some msg, obj := obj1, statusPersists := [st], secret := env.secretPre }

/-- The handleRenewal branch: provision, then write the output Secret
(setting the controller owner and merging stringData into the data map),
then mark the status Ready and persist it, scheduling the next pass.
Either failure is recorded through failStatus. -/
def handleRenewal (env : Env) (obj : Obj) : Outcome :=
  match env.provision with
  | .error e =>
    let out := failStatus env obj ("provisioning failed: " ++ e)
    { out with calls := [.provision] }
  | .ok result =>
    match env.secretWriteErr with
    | some we =>
      let out := failStatus env obj ("output secret: " ++ we)
      { out with calls := [.provision] }
    | none =>
      let oldData := match env.secretPre with
        | some s => s.data
        | none => []
      let newSecret : SecretState :=
        { controllerOwner := some obj.name
          data := mergeStringData oldData result.stringData }
      let st := obj.status.setReady env.now obj.generation result
      let obj1 := { obj with status := st }
      match env.statusUpdateErr with
      | some ue =>
        { err := some ue
          obj := obj1
          calls := [.provision]
          statusPersists := [st]
          secret := some newSecret
          secretWrites := 1 }
      | none =>
        { result := scheduleNext env obj1
          obj := obj1
          calls := [.provision]
          statusPersists := [st]
          secret := some newSecret
          secretWrites := 1 }

/-- The reconcile orchestrator, mirroring the source pipeline: fetch
(swallowing not-found), deletion branch, finalizer installation with an
immediate requeue, spec validation with a persisted Failed status and no
retry, cleanup of expired keys with a status persist when any key was
dropped, the need-renewal check on the cleaned status, and either the
renewal branch or scheduling of the next pass. -/
def reconcile (env : Env) (obj0 : Obj) : Outcome :=
  match env.getObjErr with
  | some .notFound => { obj := obj0, secret := env.secretPre }
  | some (.other m) => { err := some m, obj := obj0, secret := env.secretPre }
  | none =>
    if !obj0.deletionTimestampIsZero then
      handleDeletion env obj0
    else if !(obj0.finalizers.contains Finalizer) then
      let obj1 := { obj0 with finalizers := obj0.finalizers ++ [Finalizer] }
      match env.updateObjErr with
      | some e =>
        { err := some ("adding finalizer: " ++ e)
          obj := obj1
          objPersists := 1
          secret := env.secretPre }
      | none =>
        { result := .requeue, obj := obj1, objPersists := 1, secret := env.secretPre }
    else
      match obj0.validateErr with
      | some ve =>
        let st := obj0.status.setFailed env.now obj0.generation ("invalid config: " ++ ve)
        let obj1 := { obj0 with status := st }
        match env.statusUpdateErr with
        | some ue =>
          { err := some ue, obj := obj1, statusPersists := [st], secret := env.secretPre }
        | none =>
          { obj := obj1, statusPersists := [st], secret := env.secretPre }
      | none =>
        let cleanupCalls :=
          ((obj0.status.activeKeys.filter fun k => decide (k.expiresAt < env.now)).map
            fun k => ProviderCall.deleteKey k.keyID)
        let cleaned := ActiveKeys.dropExpired env.now
          (fun k => (env.deleteKeyErr k.keyID).isSome) obj0.status.activeKeys
        let st1 := { obj0.status with activeKeys := cleaned.1 }
        let obj1 := { obj0 with status := st1 }
        let cleanupPersists := if 0 < cleaned.2.length then [st1] else []
        if st1.needsRenewal env.now obj0.generation env.secretHasData then
          let out := handleRenewal env obj1
          { out with
            calls := cleanupCalls ++ out.calls
            statusPersists := cleanupPersists ++ out.statusPersists }
        else
          { result := scheduleNext env obj1
            obj := obj1
            calls := cleanupCalls
            statusPersists := cleanupPersists
            secret := env.secretPre }

/-! Helper lemmas about the key-set operations and conditions. -/

/-- Running the Newest accumulator loop with a nonempty accumulator always
produces a value. -/
theorem newestGo_isSome (l : ActiveKeys) : ∀ a, ∃ r, ActiveKeys.newestGo (some a) l = some r := by
  induction l with
  | nil => intro a; exact ⟨a, rfl⟩
  | cons k t ih =>
    intro a
    by_cases h : a.createdAt < k.createdAt
    · obtain ⟨r, hr⟩ := ih k
      exact ⟨r, by simpa [ActiveKeys.newestGo, h] using hr⟩
    · obtain ⟨r, hr⟩ := ih a
      exact ⟨r, by simpa [ActiveKeys.newestGo, h] using hr⟩

/-- Newest of a nonempty list is a value. -/
theorem newest_isSome (k : ActiveKey) (t : ActiveKeys) :
    ∃ r, ActiveKeys.newest (k :: t) = some r := by
  obtain ⟨r, hr⟩ := newestGo_isSome t k
  exact ⟨r, by simpa [ActiveKeys.newest, ActiveKeys.newestGo] using hr⟩

/-- Decomposition produced by the Newest accumulator loop: the result
splits the candidate list so that every entry strictly before it is
strictly older and every entry after it is no newer. -/
theorem newestGo_spec (l : ActiveKeys) : ∀ a : ActiveKey,
    ∃ l1 r l2, a :: l = l1 ++ r :: l2 ∧ ActiveKeys.newestGo (some a) l = some r ∧
      (∀ j ∈ l1, j.createdAt < r.createdAt) ∧ (∀ j ∈ l2, j.createdAt ≤ r.createdAt) := by
  induction l with
  | nil =>
    intro a
    exact ⟨[], a, [], rfl, rfl, by simp, by simp⟩
  | cons k t ih =>
    intro a
    by_cases h : a.createdAt < k.createdAt
    · obtain ⟨l1, r, l2, heq, hgo, hlt, hle⟩ := ih k
      have hkr : k.createdAt ≤ r.createdAt := by
        have hk : k ∈ l1 ++ r :: l2 := by
          rw [← heq]; exact List.mem_cons_self k t
        rcases List.mem_append.mp hk with hk1 | hk2
        · exact le_of_lt (hlt k hk1)
        · rcases List.mem_cons.mp hk2 with hk3 | hk4
          · rw [hk3]
          · exact hle k hk4
      refine ⟨a :: l1, r, l2, by rw [List.cons_append, ← heq], ?_, ?_, hle⟩
      · simpa [ActiveKeys.newestGo, h] using hgo
      · intro j hj
        rcases List.mem_cons.mp hj with rfl | hj1
        · exact lt_of_lt_of_le h hkr
        · exact hlt j hj1
    · obtain ⟨l1, r, l2, heq, hgo, hlt, hle⟩ := ih a
      have hka : k.createdAt ≤ a.createdAt := not_lt.mp h
      cases l1 with
      | nil =>
        have hinj : r = a ∧ l2 = t := by
          have h0 := heq
          simp only [List.nil_append, List.cons.injEq] at h0
          exact ⟨h0.1.symm, h0.2.symm⟩
        refine ⟨[], a, k :: t, rfl, ?_, by simp, ?_⟩
        · have hres : ActiveKeys.newestGo (some a) (k :: t) = some r := by
            simpa [ActiveKeys.newestGo, h] using hgo
          rw [hres, hinj.1]
        · intro j hj
          rcases List.mem_cons.mp hj with rfl | hj1
          · exact hka
          · have hj2 : j ∈ l2 := by rw [hinj.2]; exact hj1
            have hjr : j.createdAt ≤ r.createdAt := hle j hj2
            rw [hinj.1] at hjr
            exact hjr
      | cons b l1t =>
        rw [List.cons_append] at heq
        have hab : a = b := (List.cons.injEq a t b (l1t ++ r :: l2) ▸ heq :
          a = b ∧ t = l1t ++ r :: l2).1
        have ht : t = l1t ++ r :: l2 := (List.cons.injEq a t b (l1t ++ r :: l2) ▸ heq :
          a = b ∧ t = l1t ++ r :: l2).2
        subst hab
        have har : a.createdAt < r.createdAt := hlt a (List.mem_cons_self a l1t)
        refine ⟨a :: k :: l1t, r, l2, ?_, ?_, ?_, hle⟩
        · rw [ht]; simp
        · simpa [ActiveKeys.newestGo, h] using hgo
        · intro j hj
          rcases List.mem_cons.mp hj with rfl | hj1
          · exact har
          · rcases List.mem_cons.mp hj1 with rfl | hj2
            · exact lt_of_le_of_lt hka har
            · exact hlt j (List.mem_cons_of_mem a hj2)

/-- Appending a strictly newer key makes it the Newest result. -/
theorem newestGo_append_strict (l : ActiveKeys) : ∀ a k : ActiveKey,
    (∀ j ∈ l, j.createdAt < k.createdAt) → a.createdAt < k.createdAt →
    ActiveKeys.newestGo (some a) (l ++ [k]) = some k := by
  induction l with
  | nil =>
    intro a k _ hak
    simp [ActiveKeys.newestGo, hak]
  | cons b t ih =>
    intro a k hall hak
    have hb : b.createdAt < k.createdAt := hall b (List.mem_cons_self b t)
    have ht : ∀ j ∈ t, j.createdAt < k.createdAt :=
      fun j hj => hall j (List.mem_cons_of_mem b hj)
    by_cases h : a.createdAt < b.createdAt
    · simpa [ActiveKeys.newestGo, h] using ih b k ht hb
    · simpa [ActiveKeys.newestGo, h] using ih a k ht hak

/-- Newest of a list extended with a strictly newer key is that key. -/
theorem newest_append_strict (l : ActiveKeys) (k : ActiveKey)
    (hall : ∀ j ∈ l, j.createdAt < k.createdAt) :
    ActiveKeys.newest (l ++ [k]) = some k := by
  cases l with
  | nil => simp [ActiveKeys.newest, ActiveKeys.newestGo]
  | cons b t =>
    have hb : b.createdAt < k.createdAt := hall b (List.mem_cons_self b t)
    have ht : ∀ j ∈ t, j.createdAt < k.createdAt :=
      fun j hj => hall j (List.mem_cons_of_mem b hj)
    show ActiveKeys.newestGo none (b :: t ++ [k]) = some k
    have : ActiveKeys.newestGo none (b :: t ++ [k]) =
        ActiveKeys.newestGo (some b) (t ++ [k]) := by
      simp [ActiveKeys.newestGo]
    rw [this]
    exact newestGo_append_strict t b k ht hb

/-- After SetStatusCondition, the first condition of the written type has
the written status, reason, message and observed generation. -/
theorem findStatusCondition_setStatusCondition (now : Int) (newC : Condition)
    (l : List Condition) :
    ∃ c, findStatusCondition newC.type (setStatusCondition now newC l) = some c ∧
      c.type = newC.type ∧ c.status = newC.status ∧ c.reason = newC.reason ∧
      c.message = newC.message ∧ c.observedGeneration = newC.observedGeneration := by
  induction l with
  | nil =>
    refine ⟨{ newC with lastTransitionTime := some (newC.lastTransitionTime.getD now) },
      ?_, rfl, rfl, rfl, rfl, rfl⟩
    simp [setStatusCondition, findStatusCondition]
  | cons c rest ih =>
    by_cases h : c.type = newC.type
    · refine ⟨{ c with
          status := newC.status
          lastTransitionTime := if c.status = newC.status then c.lastTransitionTime
            else some (newC.lastTransitionTime.getD now)
          reason := newC.reason
          message := newC.message
          observedGeneration := newC.observedGeneration }, ?_, h, rfl, rfl, rfl, rfl⟩
      simp [setStatusCondition, findStatusCondition, h]
    · obtain ⟨c1, hf, h1, h2, h3, h4, h5⟩ := ih
      refine ⟨c1, ?_, h1, h2, h3, h4, h5⟩
      simp [setStatusCondition, findStatusCondition, h, hf]

/-! Claim theorems. -/

/-- C2: NeedsRenewal returns true exactly when the key set is empty, the
observed generation differs from the given generation, the secret has no
data, or the newest key is near expiry; otherwise it returns false. -/
theorem claim_C2_needsRenewal (s : ClientSecretStatus) (now g : Int) (shd : Bool) :
    s.needsRenewal now g shd = true ↔
      (s.activeKeys = [] ∨ s.observedGeneration ≠ g ∨ shd = false ∨
        ∃ k, s.activeKeys.newest = some k ∧ k.nearExpiry now = true) := by
  unfold ClientSecretStatus.needsRenewal
  cases hK : s.activeKeys with
  | nil => simp
  | cons k t =>
    obtain ⟨r, hr⟩ := newest_isSome k t
    by_cases hg : s.observedGeneration = g <;> by_cases hs : shd = true <;>
      simp [hg, hs, hr]

/-- C3: RenewalDuration is zero when the key set is empty; with a newest
key it is the larger of one minute and the distance from now to the start
of the renewal window; the result is never strictly between zero and one
minute. -/
theorem claim_C3_renewalDuration (s : ClientSecretStatus) (now : Int) :
    (s.activeKeys = [] → s.renewalDuration now = 0) ∧
    (∀ k, s.activeKeys.newest = some k →
      s.renewalDuration now =
        max minuteNs
          ((k.expiresAt - now) -
            min (Int.tdiv (k.expiresAt - k.createdAt) 10) renewalThreshold)) ∧
    (s.renewalDuration now = 0 ∨ minuteNs ≤ s.renewalDuration now) := by
  refine ⟨?_, ?_, ?_⟩
  · intro h
    unfold ClientSecretStatus.renewalDuration
    rw [h]
    rfl
  · intro k hk
    unfold ClientSecretStatus.renewalDuration
    rw [hk]
    simp only []
    rw [max_comm]
  · unfold ClientSecretStatus.renewalDuration
    cases hN : s.activeKeys.newest with
    | none => exact Or.inl rfl
    | some k => exact Or.inr (le_max_right _ _)

/-- C3 witness: a concrete status with a single day-long key evaluated at
its creation instant yields the expected delay of 21.6 hours. -/
theorem claim_C3_witness :
    ClientSecretStatus.renewalDuration
      { activeKeys := [⟨"k", 0, 86400000000000⟩] } 0 = 77760000000000 := by
  have h := (claim_C3_renewalDuration
    { activeKeys := [⟨"k", 0, 86400000000000⟩] } 0).2.1
    ⟨"k", 0, 86400000000000⟩ (by decide)
  rw [h]
  decide

/-- C4: SetFailed leaves the observed generation, current key id and key
set unchanged, sets phase Failed, bumps the failure count, records the
failure instant and message, and drives the Ready condition to False with
reason ProvisioningFailed, the error message, and the given generation. -/
theorem claim_C4_setFailed (s : ClientSecretStatus) (now g : Int) (e : String) :
    (s.setFailed now g e).observedGeneration = s.observedGeneration ∧
    (s.setFailed now g e).currentKeyID = s.currentKeyID ∧
    (s.setFailed now g e).activeKeys = s.activeKeys ∧
    (s.setFailed now g e).phase = PhaseFailed ∧
    (s.setFailed now g e).failureCount = s.failureCount + 1 ∧
    (s.setFailed now g e).lastFailure = some now ∧
    (s.setFailed now g e).lastFailureMessage = e ∧
    ∃ c, findStatusCondition ConditionReady (s.setFailed now g e).conditions = some c ∧
      c.status = "False" ∧ c.reason = "ProvisioningFailed" ∧
      c.message = e ∧ c.observedGeneration = g := by
  refine ⟨rfl, rfl, rfl, rfl, rfl, rfl, rfl, ?_⟩
  obtain ⟨c, hf, h1, h2, h3, h4, h5⟩ :=
    findStatusCondition_setStatusCondition now
      ⟨ConditionReady, "False", "ProvisioningFailed", e, g, none⟩ s.conditions
  exact ⟨c, hf, h2, h3, h4, h5⟩

/-- C5 counterexample: with two keys sharing the greatest createdAt, the
entry earlier in iteration order is returned, not the later one as the
claim states. -/
theorem claim_C5_counterexample :
    ActiveKeys.newest [⟨"a", 100, 200⟩, ⟨"b", 100, 200⟩] = some ⟨"a", 100, 200⟩ ∧
    ActiveKeys.newest [⟨"a", 100, 200⟩, ⟨"b", 100, 200⟩] ≠ some ⟨"b", 100, 200⟩ := by
  decide

/-- C5 amended: Newest returns nothing exactly when the set is empty, and
otherwise an entry with the greatest createdAt such that every entry
earlier in iteration order is strictly older — on ties the entry that
appears earlier wins. -/
theorem claim_C5_newest (keys : ActiveKeys) :
    (keys.newest = none ↔ keys = []) ∧
    (∀ r, keys.newest = some r → ∃ l1 l2, keys = l1 ++ r :: l2 ∧
      (∀ j ∈ l1, j.createdAt < r.createdAt) ∧
      (∀ j ∈ l2, j.createdAt ≤ r.createdAt)) := by
  constructor
  · constructor
    · intro h
      cases hK : keys with
      | nil => rfl
      | cons k t =>
        obtain ⟨r, hr⟩ := newest_isSome k t
        rw [hK, hr] at h
        exact absurd h (by simp)
    · intro h
      rw [h]
      rfl
  · intro r hr
    cases hK : keys with
    | nil =>
      rw [hK] at hr
      exact absurd hr (by simp [ActiveKeys.newest, ActiveKeys.newestGo])
    | cons k t =>
      obtain ⟨l1, r1, l2, heq, hgo, hlt, hle⟩ := newestGo_spec t k
      have hkt : ActiveKeys.newest (k :: t) = ActiveKeys.newestGo (some k) t := rfl
      rw [hK, hkt, hgo] at hr
      injection hr with hr1
      subst hr1
      exact ⟨l1, l2, heq, hlt, hle⟩

/-- C5 witness: the amended theorem applied to a concrete two-key set with
distinct creation instants picks the later-created key. -/
theorem claim_C5_witness :
    ∃ l1 l2, ([⟨"a", 100, 200⟩, ⟨"b", 150, 250⟩] : ActiveKeys) =
      l1 ++ (⟨"b", 150, 250⟩ : ActiveKey) :: l2 ∧
      (∀ j ∈ l1, j.createdAt < (150 : Int)) ∧
      (∀ j ∈ l2, j.createdAt ≤ (150 : Int)) := by
  have h := (claim_C5_newest [⟨"a", 100, 200⟩, ⟨"b", 150, 250⟩]).2
    ⟨"b", 150, 250⟩ (by decide)
  exact h

/-- C6 counterexample: a key whose createdAt and expiresAt both equal now
is not reported near expiry, contradicting the claim, whose right side
holds at that input because now is at least expiresAt. -/
theorem claim_C6_counterexample :
    ¬ (ActiveKey.nearExpiry 0 ⟨"k", 0, 0⟩ = true ↔
        ((0 : Int) ≥ (ActiveKey.mk "k" 0 0).expiresAt ∨
          (ActiveKey.mk "k" 0 0).expiresAt - 0 <
            min (Int.tdiv
                ((ActiveKey.mk "k" 0 0).expiresAt - (ActiveKey.mk "k" 0 0).createdAt) 10)
              renewalThreshold)) := by
  decide

/-- C6 amended: a key is near expiry exactly when now is strictly past
expiresAt or the remaining lifetime is below min(validity/10, the renewal
cap); at the instant expiresAt = now the key is near expiry exactly when
that threshold is positive. -/
theorem claim_C6_nearExpiry (now : Int) (k : ActiveKey) :
    (k.nearExpiry now = true ↔
      (k.expiresAt < now ∨
        k.expiresAt - now <
          min (Int.tdiv (k.expiresAt - k.createdAt) 10) renewalThreshold)) ∧
    (k.expiresAt = now →
      (k.nearExpiry now = true ↔
        0 < min (Int.tdiv (k.expiresAt - k.createdAt) 10) renewalThreshold)) := by
  constructor
  · unfold ActiveKey.nearExpiry
    by_cases h : k.expiresAt < now <;> simp [h]
  · intro he
    unfold ActiveKey.nearExpiry
    rw [he]
    simp

/-- C6 witness: the amended theorem applied to a key with a one-day
validity evaluated one hour before expiry reports near expiry. -/
theorem claim_C6_witness :
    ActiveKey.nearExpiry 82800000000000 ⟨"k", 0, 86400000000000⟩ = true := by
  have h := (claim_C6_nearExpiry 82800000000000 ⟨"k", 0, 86400000000000⟩).1
  rw [h]
  decide

/-- With no secret data, NeedsRenewal is always true. -/
theorem needsRenewal_of_no_data (s : ClientSecretStatus) (now g : Int) :
    s.needsRenewal now g false = true := by
  unfold ClientSecretStatus.needsRenewal
  by_cases h1 : s.activeKeys.length = 0 <;>
    by_cases h2 : s.observedGeneration = g <;> simp [h1, h2]

/-- C1: a reconcile of a deleting resource with the finalizer present
calls DeleteKey once per key in order; when some not-yet-expired key
fails to delete it returns the error naming the count and leaves the
resource untouched, otherwise it removes the finalizer and persists the
resource, and under a clean persist the returned error is nonempty
exactly when an active failure occurred. With the finalizer absent it
returns success with no requeue and makes no provider calls. -/
theorem claim_C1_handleDeletion (env : Env) (obj : Obj)
    (hget : env.getObjErr = none) (hdel : obj.deletionTimestampIsZero = false) :
    (Finalizer ∉ obj.finalizers →
      (reconcile env obj).result = CtrlResult.empty ∧
      (reconcile env obj).err = none ∧
      (reconcile env obj).calls = []) ∧
    (Finalizer ∈ obj.finalizers →
      (reconcile env obj).calls =
        obj.status.activeKeys.map (fun k => ProviderCall.deleteKey k.keyID) ∧
      (0 < activeFailureCount env obj.status.activeKeys →
        (reconcile env obj).err =
          some (deletionFailureMsg (activeFailureCount env obj.status.activeKeys)) ∧
        (reconcile env obj).obj = obj ∧
        (reconcile env obj).objPersists = 0) ∧
      (activeFailureCount env obj.status.activeKeys = 0 →
        (reconcile env obj).err = env.updateObjErr ∧
        Finalizer ∉ (reconcile env obj).obj.finalizers ∧
        (reconcile env obj).objPersists = 1) ∧
      (env.updateObjErr = none →
        ((reconcile env obj).err ≠ none ↔
          0 < activeFailureCount env obj.status.activeKeys))) := by
  have hrec : reconcile env obj = handleDeletion env obj := by
    simp [reconcile, hget, hdel]
  rw [hrec]
  constructor
  · intro hout
    simp [handleDeletion, hout]
  · intro hin
    by_cases hn : 0 < activeFailureCount env obj.status.activeKeys
    · refine ⟨?_, ?_, ?_, ?_⟩
      · simp [handleDeletion, hin, hn]
      · intro _
        refine ⟨?_, ?_, ?_⟩ <;> simp [handleDeletion, hin, hn]
      · intro h0
        rw [h0] at hn
        exact absurd hn (by simp)
      · intro hupd
        simp [handleDeletion, hin, hn]
    · have h0 : activeFailureCount env obj.status.activeKeys = 0 := Nat.eq_zero_of_not_pos hn
      refine ⟨?_, ?_, ?_, ?_⟩
      · simp [handleDeletion, hin, hn]
      · intro hcontra
        rw [h0] at hcontra
        exact absurd hcontra (by simp)
      · intro _
        refine ⟨?_, ?_, ?_⟩
        · simp [handleDeletion, hin, hn]
        · have : (handleDeletion env obj).obj.finalizers =
              obj.finalizers.filter (· ≠ Finalizer) := by
            simp [handleDeletion, hin, hn]
          rw [this]
          simp
        · simp [handleDeletion, hin, hn]
      · intro hupd
        simp [handleDeletion, hin, hn, hupd, h0]

/-- C1 witness: deletion of a resource holding one expired failing key and
one active failing key blocks with a count of one; with the finalizer
absent nothing is called. -/
theorem claim_C1_witness :
    (reconcile
      { now := 300, deleteKeyErr := fun _ => some "boom" }
      { deletionTimestampIsZero := false
        finalizers := [Finalizer]
        status := { activeKeys := [⟨"old", 0, 100⟩, ⟨"live", 0, 400⟩] } }).err =
      some (deletionFailureMsg 1) := by
  have h := (claim_C1_handleDeletion
    { now := 300, deleteKeyErr := fun _ => some "boom" }
    { deletionTimestampIsZero := false
      finalizers := [Finalizer]
      status := { activeKeys := [⟨"old", 0, 100⟩, ⟨"live", 0, 400⟩] } }
    rfl rfl).2 (by decide)
  exact (h.2.1 (by decide)).1

/-- C7: a non-deleting reconcile with the finalizer present and a failing
Validate records a Failed status whose message is prefixed with invalid
config, persists exactly that status, makes no provider call, and under a
clean status persist returns the empty directive with no error. -/
theorem claim_C7_validationFailure (env : Env) (obj : Obj) (e : String)
    (hget : env.getObjErr = none) (hdel : obj.deletionTimestampIsZero = true)
    (hfin : Finalizer ∈ obj.finalizers) (hval : obj.validateErr = some e) :
    (reconcile env obj).obj.status =
      obj.status.setFailed env.now obj.generation ("invalid config: " ++ e) ∧
    (reconcile env obj).obj.status.phase = PhaseFailed ∧
    (reconcile env obj).obj.status.lastFailureMessage = "invalid config: " ++ e ∧
    (reconcile env obj).statusPersists =
      [obj.status.setFailed env.now obj.generation ("invalid config: " ++ e)] ∧
    (reconcile env obj).calls = [] ∧
    (env.statusUpdateErr = none →
      (reconcile env obj).result = CtrlResult.empty ∧
      (reconcile env obj).err = none) := by
  cases hupd : env.statusUpdateErr with
  | none =>
    refine ⟨?_, ?_, ?_, ?_, ?_, ?_⟩ <;>
      simp [reconcile, hget, hdel, hfin, hval, hupd, ClientSecretStatus.setFailed]
  | some ue =>
    refine ⟨?_, ?_, ?_, ?_, ?_, ?_⟩
    · simp [reconcile, hget, hdel, hfin, hval, hupd]
    · simp [reconcile, hget, hdel, hfin, hval, hupd, ClientSecretStatus.setFailed]
    · simp [reconcile, hget, hdel, hfin, hval, hupd, ClientSecretStatus.setFailed]
    · simp [reconcile, hget, hdel, hfin, hval, hupd]
    · simp [reconcile, hget, hdel, hfin, hval, hupd]
    · intro hcontra
      exact Option.noConfusion hcontra

/-- C7 witness: a concrete invalid resource is marked Failed, its status
persisted, no provider call is made, and the pass returns the empty
directive without error. -/
theorem claim_C7_witness :
    (reconcile { now := 5 }
      { finalizers := [Finalizer], validateErr := some "missing secretRef" }).calls = [] ∧
    (reconcile { now := 5 }
      { finalizers := [Finalizer], validateErr := some "missing secretRef" }).err = none := by
  have h := claim_C7_validationFailure { now := 5 }
    { finalizers := [Finalizer], validateErr := some "missing secretRef" }
    "missing secretRef" rfl rfl (by decide) rfl
  exact ⟨h.2.2.2.2.1, (h.2.2.2.2.2 rfl).2⟩

/-- C10: the deletion handler never mutates the status record and never
persists a status update; it calls DeleteKey for every key in the set
regardless of individual outcomes, and when it blocks on an active
failure the object is fully unchanged, so a later invocation repeats the
identical DeleteKey calls, revoked keys included. -/
theorem claim_C10_deletionKeepsStatus (env : Env) (obj : Obj)
    (hfin : Finalizer ∈ obj.finalizers) :
    (handleDeletion env obj).obj.status = obj.status ∧
    (handleDeletion env obj).statusPersists = [] ∧
    (handleDeletion env obj).calls =
      obj.status.activeKeys.map (fun k => ProviderCall.deleteKey k.keyID) ∧
    (0 < activeFailureCount env obj.status.activeKeys →
      (handleDeletion env obj).err ≠ none ∧
      (handleDeletion env obj).obj = obj ∧
      ∀ env2 : Env, (handleDeletion env2 obj).calls =
        obj.status.activeKeys.map (fun k => ProviderCall.deleteKey k.keyID)) := by
  by_cases hn : 0 < activeFailureCount env obj.status.activeKeys
  · refine ⟨?_, ?_, ?_, ?_⟩
    · simp [handleDeletion, hfin, hn]
    · simp [handleDeletion, hfin, hn]
    · simp [handleDeletion, hfin, hn]
    · intro _
      refine ⟨?_, ?_, ?_⟩
      · simp [handleDeletion, hfin, hn]
      · simp [handleDeletion, hfin, hn]
      · intro env2
        by_cases hn2 : 0 < activeFailureCount env2 obj.status.activeKeys <;>
          simp [handleDeletion, hfin, hn2]
  · refine ⟨?_, ?_, ?_, ?_⟩
    · simp [handleDeletion, hfin, hn]
    · simp [handleDeletion, hfin, hn]
    · simp [handleDeletion, hfin, hn]
    · intro hcontra
      exact absurd hcontra hn

/-- C10 witness: with one revocable and one failing active key, the
handler calls DeleteKey for both, leaves the status untouched, persists
nothing, and a later invocation repeats both calls. -/
theorem claim_C10_witness :
    (handleDeletion
      { now := 50, deleteKeyErr := fun k => if k = "bad" then some "boom" else none }
      { finalizers := [Finalizer]
        status := { activeKeys := [⟨"good", 0, 100⟩, ⟨"bad", 0, 100⟩] } }).calls =
      [ProviderCall.deleteKey "good", ProviderCall.deleteKey "bad"] ∧
    (handleDeletion
      { now := 50, deleteKeyErr := fun k => if k = "bad" then some "boom" else none }
      { finalizers := [Finalizer]
        status := { activeKeys := [⟨"good", 0, 100⟩, ⟨"bad", 0, 100⟩] } }).statusPersists =
      [] := by
  have h := claim_C10_deletionKeepsStatus
    { now := 50, deleteKeyErr := fun k => if k = "bad" then some "boom" else none }
    { finalizers := [Finalizer]
      status := { activeKeys := [⟨"good", 0, 100⟩, ⟨"bad", 0, 100⟩] } }
    (by decide)
  exact ⟨h.2.2.1, h.2.1⟩

/-- C9: any secret fetch error makes secretHasData false, so a validated
non-deleting pass with the finalizer present performs a Provision call,
and the error it returns is never the fetch error: it is either nothing,
a provisioning or output-secret failure message, or the status-persist
error. -/
theorem claim_C9_secretFetchError (env : Env) (obj : Obj) (e : String)
    (hget : env.getObjErr = none) (hdel : obj.deletionTimestampIsZero = true)
    (hfin : Finalizer ∈ obj.finalizers) (hval : obj.validateErr = none)
    (herr : env.secretGetErr = some e) :
    env.secretHasData = false ∧
    ProviderCall.provision ∈ (reconcile env obj).calls ∧
    ((reconcile env obj).err = none ∨
      (∃ m, (reconcile env obj).err = some ("provisioning failed: " ++ m)) ∨
      (∃ m, (reconcile env obj).err = some ("output secret: " ++ m)) ∨
      (reconcile env obj).err = env.statusUpdateErr) := by
  have hshd : env.secretHasData = false := by
    simp [Env.secretHasData, herr]
  refine ⟨hshd, ?_, ?_⟩
  · rcases hp : env.provision with pe | pr
    · rcases hu : env.statusUpdateErr with _ | ue <;>
        simp [reconcile, hget, hdel, hfin, hval, hshd, needsRenewal_of_no_data,
          handleRenewal, failStatus, hp, hu]
    · rcases hw : env.secretWriteErr with _ | we <;>
        rcases hu : env.statusUpdateErr with _ | ue <;>
          simp [reconcile, hget, hdel, hfin, hval, hshd, needsRenewal_of_no_data,
            handleRenewal, failStatus, hp, hw, hu]
  · rcases hu : env.statusUpdateErr with _ | ue
    · rcases hp : env.provision with pe | pr
      · refine Or.inr (Or.inl ⟨pe, ?_⟩)
        simp [reconcile, hget, hdel, hfin, hval, hshd, needsRenewal_of_no_data,
          handleRenewal, failStatus, hp, hu]
      · rcases hw : env.secretWriteErr with _ | we
        · refine Or.inl ?_
          simp [reconcile, hget, hdel, hfin, hval, hshd, needsRenewal_of_no_data,
            handleRenewal, failStatus, hp, hw, hu]
        · refine Or.inr (Or.inr (Or.inl ⟨we, ?_⟩))
          simp [reconcile, hget, hdel, hfin, hval, hshd, needsRenewal_of_no_data,
            handleRenewal, failStatus, hp, hw, hu]
    · refine Or.inr (Or.inr (Or.inr ?_))
      rcases hp : env.provision with pe | pr
      · simp [reconcile, hget, hdel, hfin, hval, hshd, needsRenewal_of_no_data,
          handleRenewal, failStatus, hp, hu]
      · rcases hw : env.secretWriteErr with _ | we <;>
          simp [reconcile, hget, hdel, hfin, hval, hshd, needsRenewal_of_no_data,
            handleRenewal, failStatus, hp, hw, hu]

/-- C9 witness: with a transient secret fetch error and a healthy
provider, the concrete pass performs a Provision call. -/
theorem claim_C9_witness :
    ProviderCall.provision ∈
      (reconcile
        { now := 150
          secretGetErr := some "timeout"
          provision := Except.ok
            { stringData := [("KEY", "v")], validUntil := 300,
              provisionedAt := 150, keyID := "k2" } }
        { name := "r"
          generation := 1
          finalizers := [Finalizer]
          status := { observedGeneration := 1
                      activeKeys := [⟨"k1", 100, 200⟩] } }).calls := by
  have h := claim_C9_secretFetchError
    { now := 150
      secretGetErr := some "timeout"
      provision := Except.ok
        { stringData := [("KEY", "v")], validUntil := 300,
          provisionedAt := 150, keyID := "k2" } }
    { name := "r"
      generation := 1
      finalizers := [Finalizer]
      status := { observedGeneration := 1
                  activeKeys := [⟨"k1", 100, 200⟩] } }
    "timeout" rfl rfl (by decide) rfl rfl
  exact h.2.1

/-- C8 counterexample: a fully successful pass that ends Ready, obtained
with a provider result carrying an empty keyID and empty stringData (both
permitted by the provider contract), leaves currentKeyID different from
the keyID of the newest active key and the output Secret with empty
data. -/
theorem claim_C8_counterexample :
    (let out := reconcile
        { now := 150
          provision := Except.ok
            { stringData := [], validUntil := 300, provisionedAt := 150, keyID := "" } }
        { name := "r"
          generation := 2
          finalizers := [Finalizer]
          status := { observedGeneration := 1
                      activeKeys := [⟨"k1", 100, 200⟩] } }
     out.err = none ∧
     out.obj.status.phase = PhaseReady ∧
     out.statusPersists.length = 1 ∧
     out.obj.status.currentKeyID = "" ∧
     out.obj.status.activeKeys.newest = some ⟨"k1", 100, 200⟩ ∧
     out.secret = some { controllerOwner := some "r", data := [] }) := by
  decide

/-- C8 amended: a renewal pass in which Provision, the Secret write and
the status persist all succeed ends Ready with currentKeyID equal to the
result keyID, persists exactly the new status, and leaves the Secret
owned by the resource, all of this for every such pass, empty keyID
included; the Secret data is nonempty whenever the result stringData is
nonempty; and when the result keyID is nonempty and strictly newer than
every prior active key, the appended key is the newest entry, so
currentKeyID equals its keyID. -/
theorem claim_C8_readyState (env : Env) (obj : Obj) (res : Result)
    (hprov : env.provision = Except.ok res)
    (hwrite : env.secretWriteErr = none)
    (hstat : env.statusUpdateErr = none) :
    (handleRenewal env obj).err = none ∧
    (handleRenewal env obj).obj.status.phase = PhaseReady ∧
    (handleRenewal env obj).obj.status.currentKeyID = res.keyID ∧
    (handleRenewal env obj).statusPersists = [(handleRenewal env obj).obj.status] ∧
    (∃ sec, (handleRenewal env obj).secret = some sec ∧
      sec.controllerOwner = some obj.name ∧
      (res.stringData ≠ [] → sec.data ≠ [])) ∧
    (res.keyID ≠ "" →
      (∀ k ∈ obj.status.activeKeys, k.createdAt < res.provisionedAt) →
      (handleRenewal env obj).obj.status.activeKeys.newest =
        some ⟨res.keyID, res.provisionedAt, res.validUntil⟩) := by
  refine ⟨?_, ?_, ?_, ?_, ?_, ?_⟩
  · simp [handleRenewal, hprov, hwrite, hstat]
  · by_cases hk : res.keyID = "" <;>
      simp [handleRenewal, hprov, hwrite, hstat, ClientSecretStatus.setReady, hk]
  · by_cases hk : res.keyID = "" <;>
      simp [handleRenewal, hprov, hwrite, hstat, ClientSecretStatus.setReady, hk]
  · simp [handleRenewal, hprov, hwrite, hstat]
  · refine ⟨{ controllerOwner := some obj.name
              data := mergeStringData
                (match env.secretPre with
                  | some s => s.data
                  | none => []) res.stringData }, ?_, rfl, ?_⟩
    · simp [handleRenewal, hprov, hwrite, hstat]
    · intro hdata hnil
      unfold mergeStringData at hnil
      exact hdata (List.append_eq_nil.mp hnil).2
  · intro hkey hfresh
    have hkeys : (handleRenewal env obj).obj.status.activeKeys =
        obj.status.activeKeys ++ [⟨res.keyID, res.provisionedAt, res.validUntil⟩] := by
      simp [handleRenewal, hprov, hwrite, hstat, ClientSecretStatus.setReady, hkey]
    rw [hkeys]
    exact newest_append_strict obj.status.activeKeys
      ⟨res.keyID, res.provisionedAt, res.validUntil⟩ hfresh

/-- C8 witness: a concrete successful renewal with a fresh nonempty key
ends with currentKeyID equal to the newest active key. -/
theorem claim_C8_witness :
    (handleRenewal
      { now := 150
        provision := Except.ok
          { stringData := [("KEY", "v")], validUntil := 300,
            provisionedAt := 150, keyID := "k2" } }
      { name := "r"
        generation := 2
        finalizers := [Finalizer]
        status := { observedGeneration := 1
                    activeKeys := [⟨"k1", 100, 200⟩] } }).obj.status.currentKeyID =
      "k2" ∧
    (handleRenewal
      { now := 150
        provision := Except.ok
          { stringData := [("KEY", "v")], validUntil := 300,
            provisionedAt := 150, keyID := "k2" } }
      { name := "r"
        generation := 2
        finalizers := [Finalizer]
        status := { observedGeneration := 1
                    activeKeys := [⟨"k1", 100, 200⟩] } }).obj.status.activeKeys.newest =
      some ⟨"k2", 150, 300⟩ := by
  have h := claim_C8_readyState
    { now := 150
      provision := Except.ok
        { stringData := [("KEY", "v")], validUntil := 300,
          provisionedAt := 150, keyID := "k2" } }
    { name := "r"
      generation := 2
      finalizers := [Finalizer]
      status := { observedGeneration := 1
                  activeKeys := [⟨"k1", 100, 200⟩] } }
    { stringData := [("KEY", "v")], validUntil := 300,
      provisionedAt := 150, keyID := "k2" }
    rfl rfl rfl
  exact ⟨h.2.2.1, h.2.2.2.2.2 (by decide) (by decide)⟩

end Valet
